import Mathlib

/-!
Verification of the library data-management core of the Personal Library
Manager (src/library_manager.py) against its natural-language specification.
Python strings are modelled as lists of characters; the Python string
operations used by the program (startswith, replace, strip, lower,
splitlines, int conversion, substring membership) are embedded below over
that representation, and every program operation is translated from the
source file.
-/

namespace LibraryManager

/-- Model of a Python string: a sequence of unicode characters. -/
abbrev Str := List Char

/-- Conversion from a Lean string literal into the model. -/
def str (s : String) : Str := s.toList

/-- The ASCII whitespace characters removed by Python str.strip()
(plus the C1 separators and NBSP which Python also treats as space). -/
def isPySpace (c : Char) : Bool :=
  c = ' ' || c = '\t' || c = '\n' || c = '\r' || c = '\x0b' || c = '\x0c' ||
  c = '\x1c' || c = '\x1d' || c = '\x1e' || c = '\x1f' || c = '\x85' || c = '\xa0'

/-- Python str.strip(): remove leading and trailing whitespace. -/
def pyStrip (s : Str) : Str :=
  ((s.dropWhile isPySpace).reverse.dropWhile isPySpace).reverse

/-- Python str.startswith(pat). -/
def pyStartswith : Str → Str → Bool
  | [], _ => true
  | _ :: _, [] => false
  | p :: ps, c :: cs => p == c && pyStartswith ps cs

/-- Python substring membership, `pat in s`. -/
def containsSub (pat : Str) : Str → Bool
  | [] => pyStartswith pat []
  | c :: rest => pyStartswith pat (c :: rest) || containsSub pat rest

/-- Worker for Python str.replace: replaces the non-overlapping occurrences
of pat left to right; the fuel argument only bounds the recursion and a
fuel of at least the length of the string is always sufficient. -/
def pyReplaceGo (pat repl : Str) : Nat → Str → Str
  | _, [] => []
  | 0, s => s
  | fuel + 1, c :: rest =>
    if pyStartswith pat (c :: rest) ∧ pat ≠ [] then
      repl ++ pyReplaceGo pat repl fuel (List.drop pat.length (c :: rest))
    else
      c :: pyReplaceGo pat repl fuel rest

/-- Python str.replace(pat, repl) for a non-empty pattern. -/
def pyReplace (pat repl s : Str) : Str := pyReplaceGo pat repl s.length s

/-- Python str.lower() restricted to ASCII letters. -/
def pyLowerChar (c : Char) : Char :=
  if 'A' ≤ c ∧ c ≤ 'Z' then Char.ofNat (c.toNat + 32) else c

/-- Python str.lower(). -/
def pyLower (s : Str) : Str := s.map pyLowerChar

/-- The characters Python str.splitlines() treats as line boundaries. -/
def breakChars : Str :=
  ['\n', '\r', '\x0b', '\x0c', '\x1c', '\x1d', '\x1e', '\x85', '\u2028', '\u2029']

/-- Whether a character is a Python line-break character. -/
def isPyLineBreak (c : Char) : Bool := breakChars.contains c

/-- Worker for Python str.splitlines(), accumulating the current line in
reverse. LF and CR are treated as independent boundaries, so a CRLF pair
yields one extra empty line compared to Python; an empty line is ignored
by every consumer of splitlines in this program, and the texts produced by
the program itself contain no CR at all. -/
def splitlinesGo (acc : Str) : Str → List Str
  | [] => if acc = [] then [] else [acc.reverse]
  | c :: rest =>
    if c = '\n' ∨ c = '\r' then acc.reverse :: splitlinesGo [] rest
    else splitlinesGo (c :: acc) rest

/-- Python str.splitlines(). -/
def splitlines (s : Str) : List Str := splitlinesGo [] s

/-- The decimal digit character for d (0-9). -/
def digitChar : Nat → Char
  | 0 => '0'
  | 1 => '1'
  | 2 => '2'
  | 3 => '3'
  | 4 => '4'
  | 5 => '5'
  | 6 => '6'
  | 7 => '7'
  | 8 => '8'
  | _ => '9'

/-- Decimal digits of a positive number, most significant first; the fuel
argument bounds the recursion and fuel = n is always sufficient. -/
def natToDigitsGo : Nat → Nat → Str
  | _, 0 => []
  | 0, _ + 1 => []
  | fuel + 1, n + 1 =>
    natToDigitsGo fuel ((n + 1) / 10) ++ [digitChar ((n + 1) % 10)]

/-- Python str(n) for a natural number. -/
def showNat (n : Nat) : Str := if n = 0 then ['0'] else natToDigitsGo n n

/-- Python str(y) for an integer. -/
def showInt (y : Int) : Str :=
  if y < 0 then '-' :: showNat y.natAbs else showNat y.toNat

/-- Numeric value of a decimal digit character. -/
def digitVal (c : Char) : Nat := c.toNat - 48

/-- Parse a string of decimal digits, most significant first. -/
def parseDigits (s : Str) : Nat := s.foldl (fun a c => a * 10 + digitVal c) 0

/-- All characters are decimal digits. -/
def allDigits (s : Str) : Bool := s.all fun c => decide ('0' ≤ c ∧ c ≤ '9')

/-- Python int(s) on an already stripped string: optional sign followed by
at least one digit, otherwise a ValueError (modelled as none). -/
def pyIntCore : Str → Option Int
  | [] => none
  | c :: ds =>
    if c = '-' then
      if ds ≠ [] ∧ allDigits ds then some (-(parseDigits ds : Int)) else none
    else if c = '+' then
      if ds ≠ [] ∧ allDigits ds then some ((parseDigits ds : Int)) else none
    else if allDigits (c :: ds) then some ((parseDigits (c :: ds) : Int)) else none

/-- Python int(s): leading and trailing whitespace is tolerated. -/
def pyInt (s : Str) : Option Int := pyIntCore (pyStrip s)

/-- A book record as built by add_book: all five fields present, the year
an integer (src/library_manager.py lines 87-93). -/
structure Book where
  title : Str
  author : Str
  year : Int
  genre : Str
  read_status : Bool
deriving DecidableEq

/-- A record as built by import_library: a Python dict whose keys appear
only once the corresponding line has been consumed, and whose year value
can be None after a malformed Year line (lines 196-215). The outer Option
is key presence; the inner Option on year is the None sentinel. -/
structure Rec where
  title : Option Str
  author : Option Str
  year : Option (Option Int)
  genre : Option Str
  read_status : Option Bool
deriving DecidableEq

/-- The empty dict `book = {}` of import_library. -/
def emptyRec : Rec := ⟨none, none, none, none, none⟩

/-- The dict corresponding to a complete in-memory book. -/
def toRec (b : Book) : Rec :=
  ⟨some b.title, some b.author, some (some b.year), some b.genre, some b.read_status⟩

/-!
## The program operations, translated from src/library_manager.py
-/

/-- add_book (lines 85-98), after the button press: the Python truthiness
check `if title and author and year and genre` accepts exactly non-empty
strings and a non-zero year; on success the book is appended and the pair
carries true, otherwise the library is returned unchanged with false. -/
def addBook (library : List Book) (title author : Str) (year : Int)
    (genre : Str) (read_status : Bool) : List Book × Bool :=
  if title ≠ [] ∧ author ≠ [] ∧ ¬(year = 0) ∧ genre ≠ [] then
    (library ++ [⟨title, author, year, genre, read_status⟩], true)
  else
    (library, false)

/-- The message shown by add_book (lines 96-98). -/
def addMsg (title author : Str) (ok : Bool) : Str :=
  if ok then
    str "✅ Book \x27" ++ title ++ str "\x27 by " ++ author ++ str " added successfully!"
  else
    str "❌ Please fill in all fields."

/-- The message produced by one add_book interaction. -/
def addReport (library : List Book) (title author : Str) (year : Int)
    (genre : Str) (read_status : Bool) : Str :=
  addMsg title author (addBook library title author year genre read_status).2

/-- Case-insensitive title match used by remove_book (line 106). -/
def titleMatches (t : Str) (b : Book) : Bool := pyLower b.title == pyLower t

/-- remove_book (lines 104-111): keeps the books whose lowered title
differs from the lowered argument, in place; the Bool reports whether the
length decreased (success versus the not-found error message). -/
def removeBook (library : List Book) (t : Str) : List Book × Bool :=
  let newLib := library.filter fun b => !(pyLower b.title == pyLower t)
  (newLib, decide (newLib.length < library.length))

/-- The message shown by remove_book (lines 109-111). -/
def removeMsg (t : Str) (found : Bool) : Str :=
  if found then
    str "✅ Book \x27" ++ t ++ str "\x27 removed successfully!"
  else
    str "❌ Book not found."

/-- The message produced by one remove_book interaction. -/
def removeReport (library : List Book) (t : Str) : Str :=
  removeMsg t (removeBook library t).2

/-- search_books (lines 116-121): with a falsy (empty) query the guarded
block does not run and no results are produced; otherwise the books whose
lowered title or author contains the lowered query. -/
def searchBooks (library : List Book) (q : Str) : List Book :=
  if q = [] then []
  else
    library.filter fun b =>
      containsSub (pyLower q) (pyLower b.title) || containsSub (pyLower q) (pyLower b.author)

/-- The aggregate values of display_statistics (lines 151-153). -/
structure Stats where
  total_books : Nat
  read_books : Nat
  percentage_read : ℚ

/-- display_statistics (lines 151-153): count, read count, and percentage,
zero when the library is empty. -/
def displayStatistics (library : List Book) : Stats :=
  { total_books := library.length
    read_books := (library.filter fun b => b.read_status).length
    percentage_read :=
      if library.length > 0 then
        ((library.filter fun b => b.read_status).length : ℚ) / (library.length : ℚ) * 100
      else 0 }

/-- The genre tally of display_statistics line 163 (value_counts): how
often a genre text occurs in the library. -/
def genreCount (library : List Book) (g : Str) : Nat :=
  (library.map Book.genre).count g

/-- The two-decimal rounding applied by the percentage display
f-string (line 159). -/
def formatPct (q : ℚ) : ℚ := (round (q * 100) : ℤ) / 100

/-- The Read field text written by export_library (line 183). -/
def readWord (r : Bool) : Str := if r then str "Yes" else str "No"

/-- The delimiter line written by export_library (line 184). -/
def sepLine : Str := List.replicate 30 '-'

/-- The six lines written for one book by export_library (lines 179-184),
without their trailing newline. -/
def bookLines (b : Book) : List Str :=
  [str "Title: " ++ b.title,
   str "Author: " ++ b.author,
   str "Year: " ++ showInt b.year,
   str "Genre: " ++ b.genre,
   str "Read: " ++ readWord b.read_status,
   sepLine]

/-- All lines written by export_library for a catalog. -/
def allLines : List Book → List Str
  | [] => []
  | b :: bs => bookLines b ++ allLines bs

/-- Rejoin lines, each terminated by the newline the f-strings append. -/
def joinLines : List Str → Str
  | [] => []
  | l :: ls => l ++ '\n' :: joinLines ls

/-- The text written by export_library (lines 177-184). -/
def exportText (c : List Book) : Str := joinLines (allLines c)

/-- One step of the import_library parsing loop (lines 198-215): the elif
chain on the startswith tests, each branch storing the line with all
occurrences of its label pattern removed and then stripped; the Year
branch stores the parsed integer or the None sentinel; the Read branch
appends the record and resets the dict. -/
def decodeLine (st : List Rec × Rec) (line : Str) : List Rec × Rec :=
  let library := st.1
  let book := st.2
  if pyStartswith (str "Title:") line then
    (library, { book with title := some (pyStrip (pyReplace (str "Title: ") [] line)) })
  else if pyStartswith (str "Author:") line then
    (library, { book with author := some (pyStrip (pyReplace (str "Author: ") [] line)) })
  else if pyStartswith (str "Year:") line then
    (library, { book with year := some (pyInt (pyStrip (pyReplace (str "Year: ") [] line))) })
  else if pyStartswith (str "Genre:") line then
    (library, { book with genre := some (pyStrip (pyReplace (str "Genre: ") [] line)) })
  else if pyStartswith (str "Read:") line then
    (library ++ [{ book with read_status := some (decide (pyStrip (pyReplace (str "Read: ") [] line) = str "Yes")) }],
     emptyRec)
  else
    (library, book)

/-- The import_library parsing loop over a list of lines (lines 196-215). -/
def decodeLines (lines : List Str) : List Rec :=
  (lines.foldl decodeLine ([], emptyRec)).1

/-- import_library on the decoded text of the uploaded file: split into
lines and run the parsing loop. -/
def importLibraryRecs (text : Str) : List Rec := decodeLines (splitlines text)

/-- The import menu branch of main (lines 273-276) combined with
import_library (lines 190-222): with no uploaded file nothing happens;
with an uploaded text the parsed catalog is saved unconditionally, and the
in-memory library is replaced only when the parsed catalog is truthy
(non-empty). The first component is the in-memory library afterwards, the
second the catalog passed to save_library (none when no file was given). -/
def mainImportStep (library : List Rec) (uploaded : Option Str) :
    List Rec × Option (List Rec) :=
  match uploaded with
  | none => (library, none)
  | some text =>
    let imported := decodeLines (splitlines text)
    ((if imported.isEmpty then library else imported), some imported)

/-- The result signalled by clear_library. -/
inductive ClearSignal where
  | cleared
  | confirmRequired
deriving DecidableEq

/-- clear_library (lines 227-235), after the button press, with the
session flag st.session_state confirm_clear made an explicit input and
output: with the flag set the library is emptied, saved, and the flag
reset; without it the library is untouched, the warning shown and the
flag set. The components are the library, the new flag, and the signal. -/
def clearLibrary (library : List Book) (confirmClear : Bool) :
    List Book × Bool × ClearSignal :=
  if confirmClear then ([], false, ClearSignal.cleared)
  else (library, true, ClearSignal.confirmRequired)

/-- The initial session value of confirm_clear (lines 243-244). -/
def initialConfirmClear : Bool := false

/-- A file-system operation performed by the program. -/
inductive FileOp where
  | truncate (path : Str)
  | write (path : Str) (content : Str)
deriving DecidableEq

/-- JSON rendering of a string (json.dump, default escaping of quote and
backslash; the fields the program stores need no other escapes). -/
def jsonStr (s : Str) : Str :=
  '"' :: (s.foldr (fun c acc => (if c = '"' ∨ c = '\\' then ['\\', c] else [c]) ++ acc) ['"'])

/-- JSON rendering of a boolean. -/
def jsonBool (b : Bool) : Str := if b then str "true" else str "false"

/-- JSON rendering of one book dict, keys in add_book insertion order. -/
def jsonBook (b : Book) : Str :=
  str "\x7b\"title\": " ++ jsonStr b.title ++
  str ", \"author\": " ++ jsonStr b.author ++
  str ", \"year\": " ++ showInt b.year ++
  str ", \"genre\": " ++ jsonStr b.genre ++
  str ", \"read_status\": " ++ jsonBool b.read_status ++ str "\x7d"

/-- Comma-separated JSON list items. -/
def jsonItems : List Str → Str
  | [] => []
  | [x] => x
  | x :: y :: xs => x ++ str ", " ++ jsonItems (y :: xs)

/-- json.dump of the library list (line 72). -/
def jsonDump (library : List Book) : Str :=
  str "[" ++ jsonItems (library.map jsonBook) ++ str "]"

/-- The persistent file path constant LIBRARY_FILE (line 8). -/
def LIBRARY_FILE : Str := str "library.json"

/-- save_library (lines 70-72): open(LIBRARY_FILE, "w") truncates the file
in place, then json.dump writes the serialized catalog. No temporary file
and no rename are involved. -/
def saveLibraryOps (library : List Book) : List FileOp :=
  [FileOp.truncate LIBRARY_FILE, FileOp.write LIBRARY_FILE (jsonDump library)]

/-- Effect of one file operation on the content of the persistent file. -/
def applyOp (content : Str) (op : FileOp) : Str :=
  match op with
  | FileOp.truncate _ => []
  | FileOp.write _ data => content ++ data

/-- Effect of a sequence of file operations; a crash after k operations
leaves the content applyOps prior (ops.take k). -/
def applyOps (content : Str) (ops : List FileOp) : Str :=
  ops.foldl applyOp content

/-!
## Validity of a book for the text codec, and spec-side definitions
-/

/-- The ten decimal digit characters. -/
def digitChars : Str := ['0', '1', '2', '3', '4', '5', '6', '7', '8', '9']

/-- A text field that survives the codec: non-empty, free of line breaks
(single-line), invariant under strip (no surrounding whitespace), and not
containing its own label pattern, which str.replace would also remove. -/
def textFieldOk (label : Str) (s : Str) : Prop :=
  s ≠ [] ∧ (∀ c ∈ s, isPyLineBreak c = false) ∧ pyStrip s = s ∧ containsSub label s = false

/-- A valid book for the codec round trip. -/
def validBook (b : Book) : Prop :=
  textFieldOk (str "Title: ") b.title ∧
  textFieldOk (str "Author: ") b.author ∧
  textFieldOk (str "Genre: ") b.genre

instance (label s : Str) : Decidable (textFieldOk label s) := by
  unfold textFieldOk; infer_instance

instance (b : Book) : Decidable (validBook b) := by
  unfold validBook; infer_instance

/-- Modelled from the spec: a string contains q as a substring when it
splits as pre ++ q ++ post. -/
def spec_substring (q s : Str) : Prop := ∃ pre post, s = pre ++ q ++ post

/-- Modelled from the spec: a book matches a search query when its title
or author contains the query as a case-insensitive substring. -/
def spec_search_hit (q : Str) (b : Book) : Prop :=
  spec_substring (pyLower q) (pyLower b.title) ∨ spec_substring (pyLower q) (pyLower b.author)

/-- The summary record of the spec's summarize operation. -/
structure SpecSummary where
  total : Nat
  read_count : Nat
  percent_read : ℚ
  genre_histogram : Str → Nat

/-- Modelled from the spec: total is the sequence length, read_count the
number of read books, percent_read is read_count/total*100 rounded to two
decimals and zero for an empty catalog, and the genre histogram maps each
genre text to its occurrence count. -/
def spec_summarize (c : List Book) : SpecSummary :=
  { total := c.length
    read_count := c.countP fun b => b.read_status
    percent_read :=
      if c.length = 0 then 0
      else formatPct (((c.countP fun b => b.read_status : Nat) : ℚ) / (c.length : ℚ) * 100)
    genre_histogram := fun g => c.countP fun b => b.genre == g }

/-- The summary values observable from display_statistics: the two metric
widgets (with the percentage as formatted by the f-string) and the genre
bar chart heights. -/
def codeSummary (library : List Book) : SpecSummary :=
  { total := (displayStatistics library).total_books
    read_count := (displayStatistics library).read_books
    percent_read := formatPct (displayStatistics library).percentage_read
    genre_histogram := genreCount library }

/-!
## Concrete books used in scenarios, witnesses and counterexamples
-/

/-- The first book of the spec's statistics scenario. -/
def duneBook : Book := ⟨str "Dune", str "Herbert", 1965, str "Sci-Fi", true⟩

/-- The second book of the spec's statistics scenario. -/
def foundationBook : Book := ⟨str "Foundation", str "Asimov", 1951, str "Sci-Fi", false⟩

/-- A lower-case title variant of Dune, as in the removal scenario. -/
def duneLowerBook : Book := ⟨str "dune", str "Smith", 1984, str "Fiction", false⟩

/-- A book whose title contains its own label pattern and carries a
trailing space: non-empty single-line text with an integer year, yet not
reproduced by the codec round trip. -/
def badTitleBook : Book := ⟨str "Title: A ", str "B", 2000, str "C", true⟩

/-!
## Lemmas about the embedded string operations
-/

theorem pyStartswith_append_self (p t : Str) : pyStartswith p (p ++ t) = true := by
  induction p with
  | nil => rfl
  | cons c cs ih => simp [pyStartswith, ih]

theorem pyStartswith_cons_ne {x y : Char} (xs l : Str) (h : x ≠ y) :
    pyStartswith (x :: xs) (y :: l) = false := by
  simp [pyStartswith, h]

theorem pyStartswith_heads_eq {x y : Char} {xs ys l : Str}
    (hx : pyStartswith (x :: xs) l = true) (hy : pyStartswith (y :: ys) l = true) :
    x = y := by
  cases l with
  | nil => simp [pyStartswith] at hx
  | cons c cs =>
    simp [pyStartswith] at hx hy
    exact hx.1.trans hy.1.symm

theorem pyStartswith_iff (p : Str) : ∀ s : Str, pyStartswith p s = true ↔ ∃ t, s = p ++ t := by
  induction p with
  | nil =>
    intro s
    simp [pyStartswith]
  | cons c cs ih =>
    intro s
    cases s with
    | nil => simp [pyStartswith]
    | cons d ds =>
      simp [pyStartswith, ih ds]
      intro t _
      exact eq_comm

theorem containsSub_iff (pat : Str) :
    ∀ s : Str, containsSub pat s = true ↔ ∃ pre post, s = pre ++ pat ++ post := by
  intro s
  induction s with
  | nil =>
    show pyStartswith pat [] = true ↔ _
    cases pat with
    | nil => simp [pyStartswith]
    | cons c cs => simp [pyStartswith]
  | cons c rest ih =>
    show (pyStartswith pat (c :: rest) || containsSub pat rest) = true ↔ _
    rw [Bool.or_eq_true, ih, pyStartswith_iff]
    constructor
    · rintro (⟨t, ht⟩ | ⟨pre, post, h⟩)
      · exact ⟨[], t, by simpa using ht⟩
      · exact ⟨c :: pre, post, by simp [h]⟩
    · rintro ⟨pre, post, h⟩
      cases pre with
      | nil => exact Or.inl ⟨post, by simpa using h⟩
      | cons d pre' =>
        simp only [List.cons_append, List.cons.injEq] at h
        exact Or.inr ⟨pre', post, h.2⟩

theorem containsSub_cons_false {pat : Str} {c : Char} {rest : Str}
    (h : containsSub pat (c :: rest) = false) :
    pyStartswith pat (c :: rest) = false ∧ containsSub pat rest = false := by
  simpa [containsSub] using h

theorem containsSub_head_notMem {p0 : Char} (ps : Str) :
    ∀ s : Str, (∀ c ∈ s, c ≠ p0) → containsSub (p0 :: ps) s = false := by
  intro s
  induction s with
  | nil => intro _; rfl
  | cons c rest ih =>
    intro h
    have h1 : pyStartswith (p0 :: ps) (c :: rest) = false :=
      pyStartswith_cons_ne _ _ (Ne.symm (h c (by simp)))
    have h2 := ih fun d hd => h d (List.mem_cons_of_mem _ hd)
    simp [containsSub, h1, h2]

theorem pyReplaceGo_no_occur {pat : Str} (repl : Str) :
    ∀ (fuel : Nat) (s : Str), containsSub pat s = false → pyReplaceGo pat repl fuel s = s := by
  intro fuel
  induction fuel with
  | zero =>
    intro s _
    cases s <;> rfl
  | succ fuel ih =>
    intro s hs
    cases s with
    | nil => rfl
    | cons c rest =>
      obtain ⟨h1, h2⟩ := containsSub_cons_false hs
      rw [pyReplaceGo, if_neg (by simp [h1]), ih rest h2]

theorem pyReplaceGo_head {pat : Str} (repl t : Str) (hp : pat ≠ []) (fuel : Nat) :
    pyReplaceGo pat repl (fuel + 1) (pat ++ t) = repl ++ pyReplaceGo pat repl fuel t := by
  cases pat with
  | nil => exact absurd rfl hp
  | cons p ps =>
    show pyReplaceGo (p :: ps) repl (fuel + 1) (p :: (ps ++ t)) = _
    rw [pyReplaceGo, if_pos ⟨pyStartswith_append_self (p :: ps) t, by simp⟩]
    simp [List.drop_succ_cons, List.drop_left]

theorem pyReplace_label {pat t : Str} (hp : pat ≠ []) (h : containsSub pat t = false) :
    pyReplace pat [] (pat ++ t) = t := by
  unfold pyReplace
  obtain ⟨p, ps, rfl⟩ : ∃ p ps, pat = p :: ps := by
    cases pat with
    | nil => exact absurd rfl hp
    | cons p ps => exact ⟨p, ps, rfl⟩
  have hlen : ((p :: ps) ++ t).length = (ps.length + t.length) + 1 := by
    simp [List.length_append]
  rw [hlen, pyReplaceGo_head _ _ hp, pyReplaceGo_no_occur _ _ _ h]
  simp

theorem dropWhile_eq_self_of_all {p : Char → Bool} {l : Str}
    (h : ∀ c ∈ l, p c = false) : l.dropWhile p = l := by
  cases l with
  | nil => rfl
  | cons c cs => simp [List.dropWhile_cons, h c (by simp)]

theorem pyStrip_of_no_space {s : Str} (h : ∀ c ∈ s, isPySpace c = false) : pyStrip s = s := by
  unfold pyStrip
  rw [dropWhile_eq_self_of_all h,
    dropWhile_eq_self_of_all fun c hc => h c (List.mem_reverse.mp hc),
    List.reverse_reverse]

theorem splitlinesGo_line (l : Str) :
    ∀ (acc rest : Str), (∀ c ∈ l, c ≠ '\n' ∧ c ≠ '\r') →
      splitlinesGo acc (l ++ '\n' :: rest) = (acc.reverse ++ l) :: splitlinesGo [] rest := by
  induction l with
  | nil =>
    intro acc rest _
    show splitlinesGo acc ('\n' :: rest) = _
    rw [splitlinesGo, if_pos (Or.inl rfl)]
    simp
  | cons c l' ih =>
    intro acc rest h
    have hc := h c (by simp)
    show splitlinesGo acc (c :: (l' ++ '\n' :: rest)) = _
    rw [splitlinesGo, if_neg (by simp [hc.1, hc.2])]
    rw [ih (c :: acc) rest fun d hd => h d (List.mem_cons_of_mem _ hd)]
    simp

theorem splitlines_joinLines :
    ∀ ls : List Str, (∀ l ∈ ls, ∀ c ∈ l, c ≠ '\n' ∧ c ≠ '\r') →
      splitlines (joinLines ls) = ls := by
  intro ls
  induction ls with
  | nil => intro _; rfl
  | cons l ls ih =>
    intro h
    show splitlines (l ++ '\n' :: joinLines ls) = l :: ls
    unfold splitlines
    rw [splitlinesGo_line l [] (joinLines ls) (h l (by simp))]
    rw [show splitlinesGo [] (joinLines ls) = splitlines (joinLines ls) from rfl]
    rw [ih fun l' hl' => h l' (List.mem_cons_of_mem _ hl')]
    simp

/-!
## Lemmas: str(int) followed by int(str) is the identity
-/

theorem digitChar_mem (d : Nat) : digitChar d ∈ digitChars := by
  unfold digitChar
  split <;> decide

theorem digitChars_facts :
    ∀ c ∈ digitChars, isPySpace c = false ∧ isPyLineBreak c = false ∧
      c ≠ '\n' ∧ c ≠ '\r' ∧ c ≠ 'Y' ∧ c ≠ '-' ∧ c ≠ '+' ∧
      decide ('0' ≤ c ∧ c ≤ '9') = true := by
  decide

theorem digitVal_digitChar {d : Nat} (h : d < 10) : digitVal (digitChar d) = d := by
  interval_cases d <;> rfl

theorem natToDigitsGo_mem :
    ∀ (fuel n : Nat), ∀ c ∈ natToDigitsGo fuel n, c ∈ digitChars := by
  intro fuel
  induction fuel with
  | zero =>
    intro n c hc
    cases n <;> simp [natToDigitsGo] at hc
  | succ fuel ih =>
    intro n c hc
    cases n with
    | zero => simp [natToDigitsGo] at hc
    | succ m =>
      rw [natToDigitsGo] at hc
      rcases List.mem_append.mp hc with h | h
      · exact ih _ c h
      · simp at h
        subst h
        exact digitChar_mem _

theorem natToDigitsGo_parse :
    ∀ (fuel n : Nat), 0 < n → n ≤ fuel → parseDigits (natToDigitsGo fuel n) = n := by
  intro fuel
  induction fuel with
  | zero =>
    intro n h1 h2
    omega
  | succ fuel ih =>
    intro n h1 h2
    cases n with
    | zero => omega
    | succ m =>
      rw [natToDigitsGo]
      unfold parseDigits
      rw [List.foldl_append]
      have hd : digitVal (digitChar ((m + 1) % 10)) = (m + 1) % 10 :=
        digitVal_digitChar (Nat.mod_lt _ (by omega))
      by_cases hq : (m + 1) / 10 = 0
      · have hlt : m + 1 < 10 := (Nat.div_eq_zero_iff (by omega)).mp hq
        rw [hq]
        simp [natToDigitsGo, List.foldl, hd]
        omega
      · have hqle : (m + 1) / 10 ≤ fuel := by
          have := Nat.div_lt_self (show 0 < m + 1 by omega) (show 1 < 10 by omega)
          omega
        have := ih ((m + 1) / 10) (by omega) hqle
        unfold parseDigits at this
        simp [List.foldl, this, hd]
        have hdm := Nat.div_add_mod (m + 1) 10
        omega

theorem natToDigitsGo_ne_nil (n : Nat) (h : 0 < n) : natToDigitsGo n n ≠ [] := by
  cases n with
  | zero => omega
  | succ m =>
    rw [natToDigitsGo]
    simp

theorem showNat_mem (n : Nat) : ∀ c ∈ showNat n, c ∈ digitChars := by
  unfold showNat
  split
  · intro c hc
    simp at hc
    subst hc
    decide
  · exact natToDigitsGo_mem n n

theorem showNat_ne_nil (n : Nat) : showNat n ≠ [] := by
  unfold showNat
  split
  · simp
  · exact natToDigitsGo_ne_nil n (by omega)

theorem parseDigits_showNat (n : Nat) : parseDigits (showNat n) = n := by
  unfold showNat
  split
  · subst ‹n = 0›
    rfl
  · exact natToDigitsGo_parse n n (by omega) (by omega)

theorem allDigits_showNat (n : Nat) : allDigits (showNat n) = true := by
  rw [allDigits, List.all_eq_true]
  intro c hc
  exact (digitChars_facts c (showNat_mem n c hc)).2.2.2.2.2.2.2

theorem showInt_chars (y : Int) : ∀ c ∈ showInt y, c = '-' ∨ c ∈ digitChars := by
  unfold showInt
  split
  · intro c hc
    rcases List.mem_cons.mp hc with h | h
    · exact Or.inl h
    · exact Or.inr (showNat_mem _ c h)
  · intro c hc
    exact Or.inr (showNat_mem _ c hc)

theorem showInt_no_space (y : Int) : ∀ c ∈ showInt y, isPySpace c = false := by
  intro c hc
  rcases showInt_chars y c hc with h | h
  · subst h
    decide
  · exact (digitChars_facts c h).1

theorem showInt_no_break (y : Int) : ∀ c ∈ showInt y, c ≠ '\n' ∧ c ≠ '\r' := by
  intro c hc
  rcases showInt_chars y c hc with h | h
  · subst h
    exact ⟨by decide, by decide⟩
  · exact ⟨(digitChars_facts c h).2.2.1, (digitChars_facts c h).2.2.2.1⟩

theorem showInt_ne_upperY (y : Int) : ∀ c ∈ showInt y, c ≠ 'Y' := by
  intro c hc
  rcases showInt_chars y c hc with h | h
  · subst h
    decide
  · exact (digitChars_facts c h).2.2.2.2.1

theorem pyIntCore_showNat (n : Nat) : pyIntCore (showNat n) = some (n : Int) := by
  rcases hn : showNat n with _ | ⟨c, cs⟩
  · exact absurd hn (showNat_ne_nil n)
  · have hc : c ∈ digitChars := showNat_mem n c (by rw [hn]; simp)
    have hall : allDigits (c :: cs) = true := by rw [← hn]; exact allDigits_showNat n
    rw [pyIntCore]
    rw [if_neg (digitChars_facts c hc).2.2.2.2.2.1]
    rw [if_neg (digitChars_facts c hc).2.2.2.2.2.2.1]
    rw [if_pos (by simp [hall])]
    rw [← hn, parseDigits_showNat]

theorem pyInt_showInt (y : Int) : pyInt (showInt y) = some y := by
  unfold pyInt
  rw [pyStrip_of_no_space (showInt_no_space y)]
  unfold showInt
  split
  · rename_i hneg
    rw [pyIntCore]
    rw [if_pos rfl]
    rw [if_pos ⟨showNat_ne_nil _, allDigits_showNat _⟩]
    rw [parseDigits_showNat]
    congr 1
    omega
  · rename_i hpos
    rw [pyIntCore_showNat]
    congr 1
    omega

/-!
## Lemmas: behaviour of the import parsing loop on encoder output
-/

theorem decodeLine_title (lib : List Rec) (bk : Rec) (t : Str)
    (h1 : containsSub (str "Title: ") t = false) (h2 : pyStrip t = t) :
    decodeLine (lib, bk) (str "Title: " ++ t) = (lib, { bk with title := some t }) := by
  have hpos : pyStartswith (str "Title:") (str "Title: " ++ t) = true :=
    pyStartswith_append_self (str "Title:") (' ' :: t)
  have hrep : pyReplace (str "Title: ") [] (str "Title: " ++ t) = t :=
    pyReplace_label (by decide) h1
  simp [decodeLine, hpos, hrep, h2]

theorem decodeLine_author (lib : List Rec) (bk : Rec) (a : Str)
    (h1 : containsSub (str "Author: ") a = false) (h2 : pyStrip a = a) :
    decodeLine (lib, bk) (str "Author: " ++ a) = (lib, { bk with author := some a }) := by
  have hn1 : pyStartswith (str "Title:") (str "Author: " ++ a) = false :=
    pyStartswith_cons_ne _ _ (by decide)
  have hpos : pyStartswith (str "Author:") (str "Author: " ++ a) = true :=
    pyStartswith_append_self (str "Author:") (' ' :: a)
  have hrep : pyReplace (str "Author: ") [] (str "Author: " ++ a) = a :=
    pyReplace_label (by decide) h1
  simp [decodeLine, hn1, hpos, hrep, h2]

theorem decodeLine_year (lib : List Rec) (bk : Rec) (y : Int) :
    decodeLine (lib, bk) (str "Year: " ++ showInt y) = (lib, { bk with year := some (some y) }) := by
  have hn1 : pyStartswith (str "Title:") (str "Year: " ++ showInt y) = false :=
    pyStartswith_cons_ne _ _ (by decide)
  have hn2 : pyStartswith (str "Author:") (str "Year: " ++ showInt y) = false :=
    pyStartswith_cons_ne _ _ (by decide)
  have hpos : pyStartswith (str "Year:") (str "Year: " ++ showInt y) = true :=
    pyStartswith_append_self (str "Year:") (' ' :: showInt y)
  have hocc : containsSub (str "Year: ") (showInt y) = false :=
    containsSub_head_notMem _ _ (showInt_ne_upperY y)
  have hrep : pyReplace (str "Year: ") [] (str "Year: " ++ showInt y) = showInt y :=
    pyReplace_label (by decide) hocc
  have hstrip : pyStrip (showInt y) = showInt y := pyStrip_of_no_space (showInt_no_space y)
  have hint : pyInt (pyStrip (showInt y)) = some y := by
    rw [hstrip]
    exact pyInt_showInt y
  simp [decodeLine, hn1, hn2, hpos, hrep, hint]

theorem decodeLine_genre (lib : List Rec) (bk : Rec) (g : Str)
    (h1 : containsSub (str "Genre: ") g = false) (h2 : pyStrip g = g) :
    decodeLine (lib, bk) (str "Genre: " ++ g) = (lib, { bk with genre := some g }) := by
  have hn1 : pyStartswith (str "Title:") (str "Genre: " ++ g) = false :=
    pyStartswith_cons_ne _ _ (by decide)
  have hn2 : pyStartswith (str "Author:") (str "Genre: " ++ g) = false :=
    pyStartswith_cons_ne _ _ (by decide)
  have hn3 : pyStartswith (str "Year:") (str "Genre: " ++ g) = false :=
    pyStartswith_cons_ne _ _ (by decide)
  have hpos : pyStartswith (str "Genre:") (str "Genre: " ++ g) = true :=
    pyStartswith_append_self (str "Genre:") (' ' :: g)
  have hrep : pyReplace (str "Genre: ") [] (str "Genre: " ++ g) = g :=
    pyReplace_label (by decide) h1
  simp [decodeLine, hn1, hn2, hn3, hpos, hrep, h2]

theorem decodeLine_read (lib : List Rec) (bk : Rec) (r : Bool) :
    decodeLine (lib, bk) (str "Read: " ++ readWord r) =
      (lib ++ [{ bk with read_status := some r }], emptyRec) := by
  cases r
  · show decodeLine (lib, bk) (str "Read: No") = _
    have hn1 : pyStartswith (str "Title:") (str "Read: No") = false := by decide
    have hn2 : pyStartswith (str "Author:") (str "Read: No") = false := by decide
    have hn3 : pyStartswith (str "Year:") (str "Read: No") = false := by decide
    have hn4 : pyStartswith (str "Genre:") (str "Read: No") = false := by decide
    have hpos : pyStartswith (str "Read:") (str "Read: No") = true := by decide
    have hval : decide (pyStrip (pyReplace (str "Read: ") [] (str "Read: No")) = str "Yes") = false := by
      decide
    simp [decodeLine, hn1, hn2, hn3, hn4, hpos, hval]
  · show decodeLine (lib, bk) (str "Read: Yes") = _
    have hn1 : pyStartswith (str "Title:") (str "Read: Yes") = false := by decide
    have hn2 : pyStartswith (str "Author:") (str "Read: Yes") = false := by decide
    have hn3 : pyStartswith (str "Year:") (str "Read: Yes") = false := by decide
    have hn4 : pyStartswith (str "Genre:") (str "Read: Yes") = false := by decide
    have hpos : pyStartswith (str "Read:") (str "Read: Yes") = true := by decide
    have hval : decide (pyStrip (pyReplace (str "Read: ") [] (str "Read: Yes")) = str "Yes") = true := by
      decide
    simp [decodeLine, hn1, hn2, hn3, hn4, hpos, hval]

theorem decodeLine_sep (st : List Rec × Rec) : decodeLine st sepLine = st := by
  obtain ⟨lib, bk⟩ := st
  have hn1 : pyStartswith (str "Title:") sepLine = false := by decide
  have hn2 : pyStartswith (str "Author:") sepLine = false := by decide
  have hn3 : pyStartswith (str "Year:") sepLine = false := by decide
  have hn4 : pyStartswith (str "Genre:") sepLine = false := by decide
  have hn5 : pyStartswith (str "Read:") sepLine = false := by decide
  simp [decodeLine, hn1, hn2, hn3, hn4, hn5]

theorem decode_block (b : Book) (hb : validBook b) (lib : List Rec) :
    List.foldl decodeLine (lib, emptyRec) (bookLines b) = (lib ++ [toRec b], emptyRec) := by
  obtain ⟨⟨-, -, ht3, ht4⟩, ⟨-, -, ha3, ha4⟩, ⟨-, -, hg3, hg4⟩⟩ := hb
  show List.foldl decodeLine (lib, emptyRec)
      [str "Title: " ++ b.title, str "Author: " ++ b.author, str "Year: " ++ showInt b.year,
       str "Genre: " ++ b.genre, str "Read: " ++ readWord b.read_status, sepLine] = _
  rw [List.foldl_cons, decodeLine_title lib emptyRec b.title ht4 ht3]
  rw [List.foldl_cons, decodeLine_author _ _ b.author ha4 ha3]
  rw [List.foldl_cons, decodeLine_year _ _ b.year]
  rw [List.foldl_cons, decodeLine_genre _ _ b.genre hg4 hg3]
  rw [List.foldl_cons, decodeLine_read _ _ b.read_status]
  rw [List.foldl_cons, decodeLine_sep, List.foldl_nil]
  rfl

theorem decode_all (c : List Book) (h : ∀ b ∈ c, validBook b) :
    ∀ lib : List Rec,
      List.foldl decodeLine (lib, emptyRec) (allLines c) = (lib ++ c.map toRec, emptyRec) := by
  induction c with
  | nil =>
    intro lib
    simp [allLines]
  | cons b bs ih =>
    intro lib
    show List.foldl decodeLine (lib, emptyRec) (bookLines b ++ allLines bs) = _
    rw [List.foldl_append, decode_block b (h b (by simp)) lib]
    rw [ih (fun b' hb' => h b' (List.mem_cons_of_mem _ hb')) (lib ++ [toRec b])]
    simp

theorem not_break_of_isPyLineBreak {ch : Char} (h : isPyLineBreak ch = false) :
    ch ≠ '\n' ∧ ch ≠ '\r' := by
  constructor <;> intro he <;> subst he <;> exact absurd h (by decide)

theorem bookLines_noBreak (b : Book) (hb : validBook b) :
    ∀ l ∈ bookLines b, ∀ ch ∈ l, ch ≠ '\n' ∧ ch ≠ '\r' := by
  obtain ⟨⟨-, ht2, -, -⟩, ⟨-, ha2, -, -⟩, ⟨-, hg2, -, -⟩⟩ := hb
  intro l hl
  simp only [bookLines, List.mem_cons, List.not_mem_nil, or_false] at hl
  have hT : ∀ ch ∈ str "Title: ", ch ≠ '\n' ∧ ch ≠ '\r' := by decide
  have hA : ∀ ch ∈ str "Author: ", ch ≠ '\n' ∧ ch ≠ '\r' := by decide
  have hY : ∀ ch ∈ str "Year: ", ch ≠ '\n' ∧ ch ≠ '\r' := by decide
  have hG : ∀ ch ∈ str "Genre: ", ch ≠ '\n' ∧ ch ≠ '\r' := by decide
  rcases hl with rfl | rfl | rfl | rfl | rfl | rfl
  · intro ch hch
    rcases List.mem_append.mp hch with h | h
    · exact hT ch h
    · exact not_break_of_isPyLineBreak (ht2 ch h)
  · intro ch hch
    rcases List.mem_append.mp hch with h | h
    · exact hA ch h
    · exact not_break_of_isPyLineBreak (ha2 ch h)
  · intro ch hch
    rcases List.mem_append.mp hch with h | h
    · exact hY ch h
    · exact showInt_no_break b.year ch h
  · intro ch hch
    rcases List.mem_append.mp hch with h | h
    · exact hG ch h
    · exact not_break_of_isPyLineBreak (hg2 ch h)
  · intro ch hch
    have hR : ∀ r : Bool, ∀ ch ∈ str "Read: " ++ readWord r, ch ≠ '\n' ∧ ch ≠ '\r' := by decide
    exact hR b.read_status ch hch
  · intro ch hch
    have hS : ∀ ch ∈ sepLine, ch ≠ '\n' ∧ ch ≠ '\r' := by decide
    exact hS ch hch

theorem allLines_noBreak (c : List Book) (h : ∀ b ∈ c, validBook b) :
    ∀ l ∈ allLines c, ∀ ch ∈ l, ch ≠ '\n' ∧ ch ≠ '\r' := by
  induction c with
  | nil =>
    intro l hl
    simp [allLines] at hl
  | cons b bs ih =>
    intro l hl
    rcases List.mem_append.mp hl with h1 | h1
    · exact bookLines_noBreak b (h b (by simp)) l h1
    · exact ih (fun b' hb' => h b' (List.mem_cons_of_mem _ hb')) l h1

/-!
## Additional helper lemmas for the claims
-/

theorem startswith_excl {x y : Char} {xs ys l : Str} (hxy : x ≠ y)
    (h : pyStartswith (y :: ys) l = true) : pyStartswith (x :: xs) l = false := by
  cases hc : pyStartswith (x :: xs) l
  · rfl
  · exact absurd (pyStartswith_heads_eq hc h) hxy

theorem decodeLine_length (st : List Rec × Rec) (l : Str) :
    ((decodeLine st l).1).length =
      st.1.length + (if pyStartswith (str "Read:") l then 1 else 0) := by
  obtain ⟨lib, bk⟩ := st
  by_cases h5 : pyStartswith (str "Read:") l = true
  · have h1 : pyStartswith (str "Title:") l = false := startswith_excl (by decide) h5
    have h2 : pyStartswith (str "Author:") l = false := startswith_excl (by decide) h5
    have h3 : pyStartswith (str "Year:") l = false := startswith_excl (by decide) h5
    have h4 : pyStartswith (str "Genre:") l = false := startswith_excl (by decide) h5
    simp [decodeLine, h1, h2, h3, h4, h5]
  · simp only [Bool.not_eq_true] at h5
    by_cases h1 : pyStartswith (str "Title:") l = true
    · simp [decodeLine, h1, h5]
    · by_cases h2 : pyStartswith (str "Author:") l = true
      · simp [decodeLine, h1, h2, h5]
      · by_cases h3 : pyStartswith (str "Year:") l = true
        · simp [decodeLine, h1, h2, h3, h5]
        · by_cases h4 : pyStartswith (str "Genre:") l = true
          · simp [decodeLine, h1, h2, h3, h4, h5]
          · simp [decodeLine, h1, h2, h3, h4, h5]

theorem decodeLines_length_aux :
    ∀ (lines : List Str) (st : List Rec × Rec),
      ((lines.foldl decodeLine st).1).length =
        st.1.length + lines.countP (fun l => pyStartswith (str "Read:") l) := by
  intro lines
  induction lines with
  | nil =>
    intro st
    simp
  | cons l ls ih =>
    intro st
    rw [List.foldl_cons, ih, decodeLine_length, List.countP_cons]
    by_cases h : pyStartswith (str "Read:") l = true
    · simp [h]
      omega
    · simp [h]

theorem filter_not_length_aux (t : Str) :
    ∀ l : List Book,
      (l.filter fun b => !(pyLower b.title == pyLower t)).length +
        l.countP (titleMatches t) = l.length := by
  intro l
  induction l with
  | nil => rfl
  | cons b bs ih =>
    by_cases hb : titleMatches t b = true
    · have hb' : (pyLower b.title == pyLower t) = true := hb
      simp [List.filter_cons, List.countP_cons, hb, hb', titleMatches] at *
      omega
    · have hb' : (pyLower b.title == pyLower t) = false := by
        simpa [titleMatches] using hb
      simp [List.filter_cons, List.countP_cons, hb, hb'] at *
      omega

/-!
## The claims
-/

/-- Claim C1, counterexample: the round-trip claim fails as stated. The
book with title "Title: A " (non-empty single-line text, integer year) is
valid in the claim's sense, but decode(encode [b]) yields a record with
title "A": str.replace removes every occurrence of the label pattern, and
str.strip removes the trailing space. -/
theorem c1_counterexample :
    badTitleBook.title ≠ [] ∧
    badTitleBook.title.all (fun c => !(isPyLineBreak c)) = true ∧
    importLibraryRecs (exportText [badTitleBook]) =
      [⟨some (str "A"), some (str "B"), some (some 2000), some (str "C"), some true⟩] ∧
    importLibraryRecs (exportText [badTitleBook]) ≠ [badTitleBook].map toRec := by
  decide

/-- Claim C1, amended: decode(encode c) reproduces c field-for-field,
including read_status boolean fidelity and integer year, for every catalog
of valid Books whose text fields are non-empty single-line text that in
addition carries no leading or trailing whitespace and does not contain
its own label pattern ("Title: " in the title, "Author: " in the author,
"Genre: " in the genre) as a substring. -/
theorem c1_roundtrip_amended (c : List Book) (h : ∀ b ∈ c, validBook b) :
    importLibraryRecs (exportText c) = c.map toRec := by
  unfold importLibraryRecs exportText
  rw [splitlines_joinLines (allLines c) (allLines_noBreak c h)]
  unfold decodeLines
  rw [decode_all c h []]
  simp

/-- Witness for C1: the round trip on the two-book scenario catalog. -/
theorem c1_roundtrip_witness :
    importLibraryRecs (exportText [duneBook, foundationBook]) =
      [duneBook, foundationBook].map toRec :=
  c1_roundtrip_amended [duneBook, foundationBook] (by decide)

/-- Claim C2, counterexample: a Book with an empty author is rejected, but
the validation error is the fixed text "Please fill in all fields.", which
does not name the failing field: neither "author" nor "Author" occurs in
it. -/
theorem c2_counterexample :
    addBook [] (str "T") [] 2000 (str "G") false = ([], false) ∧
    addReport [] (str "T") [] 2000 (str "G") false = str "❌ Please fill in all fields." ∧
    containsSub (str "author") (addReport [] (str "T") [] 2000 (str "G") false) = false ∧
    containsSub (str "Author") (addReport [] (str "T") [] 2000 (str "G") false) = false := by
  decide

/-- Claim C2, amended: with the year constrained by the input widget to
[1000, 2024] (line 82), add rejects a Book exactly when its title, author,
or genre is empty, signalling the generic validation error "Please fill in
all fields." which does not name the failing field; on any rejection the
catalog is unchanged, and on success the Book is appended at the end. -/
theorem c2_add_amended (library : List Book) (title author : Str) (year : Int)
    (genre : Str) (read_status : Bool) (h1 : 1000 ≤ year) (h2 : year ≤ 2024) :
    ((title = [] ∨ author = [] ∨ genre = []) →
      addBook library title author year genre read_status = (library, false) ∧
      addReport library title author year genre read_status =
        str "❌ Please fill in all fields.") ∧
    (title ≠ [] ∧ author ≠ [] ∧ genre ≠ [] →
      addBook library title author year genre read_status =
        (library ++ [⟨title, author, year, genre, read_status⟩], true)) := by
  have hy : ¬(year = 0) := by omega
  constructor
  · intro hcase
    have hcond : ¬(title ≠ [] ∧ author ≠ [] ∧ ¬(year = 0) ∧ genre ≠ []) := by tauto
    constructor
    · unfold addBook
      rw [if_neg hcond]
    · unfold addReport addMsg addBook
      rw [if_neg hcond]
      simp
  · rintro ⟨ha, hb, hc⟩
    unfold addBook
    rw [if_pos ⟨ha, hb, hy, hc⟩]

/-- Witness for C2: a fully valid book is appended. -/
theorem c2_add_witness :
    addBook [] (str "Dune") (str "Herbert") 1965 (str "Sci-Fi") true =
      ([⟨str "Dune", str "Herbert", 1965, str "Sci-Fi", true⟩], true) :=
  (c2_add_amended [] (str "Dune") (str "Herbert") 1965 (str "Sci-Fi") true
    (by decide) (by decide)).2 ⟨by decide, by decide, by decide⟩

/-- Claim C3, counterexample: remove does not report the number removed.
Removing "Dune" from a one-book catalog removes one book, removing it from
a two-book catalog (case variants "Dune" and "dune") removes two, yet both
interactions produce the identical report, so the reported outcome cannot
be the number removed. -/
theorem c3_counterexample :
    [duneBook].length - ((removeBook [duneBook] (str "Dune")).1).length = 1 ∧
    [duneBook, duneLowerBook].length -
      ((removeBook [duneBook, duneLowerBook] (str "Dune")).1).length = 2 ∧
    removeReport [duneBook] (str "Dune") =
      removeReport [duneBook, duneLowerBook] (str "Dune") := by
  decide

/-- Claim C3, amended: remove deletes exactly the Books whose title equals
the given title case-insensitively (all of them, in place, preserving the
order of the rest) and reports only whether at least one Book was removed
(success versus "Book not found"), not the number; when no Book matches
the catalog is left unchanged and failure is reported. -/
theorem c3_remove_amended (library : List Book) (t : Str) :
    ((removeBook library t).1).Sublist library ∧
    (∀ b ∈ (removeBook library t).1, ¬(pyLower b.title = pyLower t)) ∧
    ((removeBook library t).1).length + library.countP (titleMatches t) = library.length ∧
    ((removeBook library t).2 = true ↔ 0 < library.countP (titleMatches t)) ∧
    (library.countP (titleMatches t) = 0 → removeBook library t = (library, false)) := by
  have hlen := filter_not_length_aux t library
  refine ⟨List.filter_sublist _, ?_, hlen, ?_, ?_⟩
  · intro b hb
    have := (List.mem_filter.mp hb).2
    simpa using this
  · show decide (_ < _) = true ↔ _
    rw [decide_eq_true_iff]
    omega
  · intro h0
    have hall : ∀ b ∈ library, (fun b => !(pyLower b.title == pyLower t)) b = true := by
      intro b hb
      have := List.countP_eq_zero.mp h0 b hb
      simpa [titleMatches] using this
    unfold removeBook
    rw [List.filter_eq_self.mpr hall]
    simp

/-- Witness for C3: removing "Dune" from the catalog holding both case
variants reports success. -/
theorem c3_remove_witness :
    (removeBook [duneBook, duneLowerBook] (str "Dune")).2 = true :=
  ((c3_remove_amended [duneBook, duneLowerBook] (str "Dune")).2.2.2.1).mpr (by decide)

/-- Claim C4, confirmed: search returns exactly the Books (in catalog
order, as a sublist) whose title or author contains the query as a
case-insensitive substring, and the empty query yields an empty result set
even on a non-empty catalog. -/
theorem c4_search (library : List Book) (q : Str) :
    searchBooks library [] = [] ∧
    ((searchBooks library q).Sublist library) ∧
    (∀ b : Book, b ∈ searchBooks library q ↔ q ≠ [] ∧ b ∈ library ∧ spec_search_hit q b) := by
  refine ⟨rfl, ?_, ?_⟩
  · unfold searchBooks
    split
    · exact List.nil_sublist _
    · exact List.filter_sublist _
  · intro b
    by_cases hq : q = []
    · subst hq
      simp [searchBooks]
    · simp only [searchBooks, if_neg hq]
      rw [List.mem_filter]
      constructor
      · rintro ⟨hmem, hp⟩
        rcases Bool.or_eq_true _ _ |>.mp hp with h | h
        · exact ⟨hq, hmem, Or.inl ((containsSub_iff _ _).mp h)⟩
        · exact ⟨hq, hmem, Or.inr ((containsSub_iff _ _).mp h)⟩
      · rintro ⟨-, hmem, hhit⟩
        refine ⟨hmem, ?_⟩
        rcases hhit with h | h
        · exact Bool.or_eq_true _ _ |>.mpr (Or.inl ((containsSub_iff _ _).mpr h))
        · exact Bool.or_eq_true _ _ |>.mpr (Or.inr ((containsSub_iff _ _).mpr h))

/-- Witness for C4: "dun" finds Dune by case-insensitive title substring. -/
theorem c4_search_witness : duneBook ∈ searchBooks [duneBook] (str "dun") := by
  have h := (c4_search [duneBook] (str "dun")).2.2 duneBook
  exact h.mpr ⟨by decide, by simp, Or.inl ⟨[], str "e", by decide⟩⟩

/-- Claim C5, confirmed: the statistics displayed by the program agree
with the spec's summarize on every catalog (total, read count, percentage
rounded to two decimals with zero on an empty catalog, genre histogram),
and the two-book scenario yields total 2, read count 1, percentage 50.00,
and genre histogram Sci-Fi mapped to 2. -/
theorem c5_statistics (library : List Book) :
    codeSummary library = spec_summarize library ∧
    (displayStatistics [duneBook, foundationBook]).total_books = 2 ∧
    (displayStatistics [duneBook, foundationBook]).read_books = 1 ∧
    formatPct (displayStatistics [duneBook, foundationBook]).percentage_read = 50 ∧
    genreCount [duneBook, foundationBook] (str "Sci-Fi") = 2 ∧
    displayStatistics [] = ⟨0, 0, 0⟩ := by
  refine ⟨?_, by decide, by decide, ?_, by decide, rfl⟩
  · unfold codeSummary spec_summarize displayStatistics genreCount
    simp only [SpecSummary.mk.injEq]
    refine ⟨trivial, (List.countP_eq_length_filter _ _).symm, ?_, ?_⟩
    · by_cases hl : library.length = 0
      · simp [hl, formatPct]
      · rw [if_pos (by omega), if_neg hl, List.countP_eq_length_filter]
    · funext g
      simp only [List.count_eq_countP, List.countP_map]
      rfl
  · have : (displayStatistics [duneBook, foundationBook]).percentage_read = 50 := by
      norm_num [displayStatistics, duneBook, foundationBook]
    rw [this]
    norm_num [formatPct]

/-- Claim C6, confirmed: during decode a record is appended exactly when a
Read: line is consumed (the result length equals the number of Read-headed
lines), and a malformed Year: abcd line does not abort decoding: that
record's year is the None sentinel, its other fields are populated
normally, and the following record is decoded as usual. -/
theorem c6_decode (lines : List Str) :
    (decodeLines lines).length = lines.countP (fun l => pyStartswith (str "Read:") l) ∧
    importLibraryRecs (str "Title: A\nAuthor: B\nYear: abcd\nGenre: G\nRead: Yes\n------------------------------\nTitle: C\nAuthor: D\nYear: 1999\nGenre: H\nRead: No\n") =
      [⟨some (str "A"), some (str "B"), some none, some (str "G"), some true⟩,
       ⟨some (str "C"), some (str "D"), some (some 1999), some (str "H"), some false⟩] := by
  constructor
  · unfold decodeLines
    rw [decodeLines_length_aux]
    simp
  · decide

/-- Claim C7, confirmed: with the confirmation flag (the session state
confirm_clear, initially false, passed explicitly) unset, a clear call
leaves the catalog unchanged, signals that confirmation is required and
raises the flag; only a call carrying the confirmation clears, so two
calls are needed. -/
theorem c7_clear (library : List Book) :
    clearLibrary library false = (library, true, ClearSignal.confirmRequired) ∧
    clearLibrary library true = ([], false, ClearSignal.cleared) ∧
    initialConfirmClear = false ∧
    clearLibrary (clearLibrary library initialConfirmClear).1
      (clearLibrary library initialConfirmClear).2.1 = ([], false, ClearSignal.cleared) := by
  exact ⟨rfl, rfl, rfl, rfl⟩

/-- Claim C8, counterexample: save is not atomic. The save sequence is a
truncating open followed by one write; a failure after the truncation and
before the write leaves an empty file, which is neither the prior content
nor the new content. -/
theorem c8_counterexample :
    applyOps (jsonDump [duneBook]) ((saveLibraryOps [foundationBook]).take 1) = [] ∧
    jsonDump [duneBook] ≠ [] ∧
    jsonDump [foundationBook] ≠ [] ∧
    (saveLibraryOps [foundationBook]).length = 2 := by
  decide

/-- Claim C8, amended: save serializes the full catalog and overwrites the
persistent file in place, truncating and then rewriting it with no
temporary file or rename, so an interruption between the truncation and
the write can leave a truncated (empty) file; a completed save replaces
the prior contents entirely, never appending to them. -/
theorem c8_save_amended (library : List Book) (prior : Str) :
    applyOps prior (saveLibraryOps library) = jsonDump library ∧
    (∀ prior2 : Str, applyOps prior2 (saveLibraryOps library) =
      applyOps prior (saveLibraryOps library)) := by
  exact ⟨rfl, fun _ => rfl⟩

/-- Claim C9, counterexample: an import whose text decodes to zero records
is reported successful and persists the empty catalog, yet the in-memory
catalog keeps every previously loaded Book, because main only replaces the
library when the imported list is truthy (non-empty). -/
theorem c9_counterexample :
    (mainImportStep [toRec duneBook] (some ([] : Str))).1 = [toRec duneBook] ∧
    (mainImportStep [toRec duneBook] (some ([] : Str))).2 = some [] ∧
    decodeLines (splitlines ([] : Str)) = [] := by
  decide

/-- Claim C9, amended: a successful import builds the new catalog from the
uploaded text alone and immediately persists it, discarding the prior
catalog on disk; the in-memory catalog is replaced by the imported one
exactly when that catalog is non-empty, so after a non-empty import no
Book of the prior catalog survives unless it also appears in the imported
text, while an import of zero records persists the empty catalog but
leaves the in-memory catalog as it was. -/
theorem c9_import_amended (library : List Rec) (text : Str) :
    (mainImportStep library (some text)).2 = some (decodeLines (splitlines text)) ∧
    (decodeLines (splitlines text) ≠ [] →
      (mainImportStep library (some text)).1 = decodeLines (splitlines text)) ∧
    (∀ r ∈ (mainImportStep library (some text)).1,
      r ∈ decodeLines (splitlines text) ∨
        (decodeLines (splitlines text) = [] ∧ r ∈ library)) ∧
    mainImportStep library none = (library, none) := by
  refine ⟨rfl, ?_, ?_, rfl⟩
  · intro h
    have he : (decodeLines (splitlines text)).isEmpty = false := by
      cases hc : (decodeLines (splitlines text)).isEmpty
      · rfl
      · exact absurd (List.isEmpty_iff.mp hc) h
    simp [mainImportStep, he]
  · intro r hr
    by_cases he : (decodeLines (splitlines text)).isEmpty = true
    · simp [mainImportStep, he] at hr
      exact Or.inr ⟨List.isEmpty_iff.mp he, hr⟩
    · simp only [Bool.not_eq_true] at he
      simp [mainImportStep, he] at hr
      exact Or.inl hr

/-- Witness for C9: importing a one-record text replaces the in-memory
catalog with the decoded record. -/
theorem c9_import_witness :
    (mainImportStep [toRec duneBook]
      (some (str "Title: C\nAuthor: D\nYear: 1999\nGenre: H\nRead: No\n"))).1 =
      decodeLines (splitlines (str "Title: C\nAuthor: D\nYear: 1999\nGenre: H\nRead: No\n")) := by
  have h := c9_import_amended [toRec duneBook]
    (str "Title: C\nAuthor: D\nYear: 1999\nGenre: H\nRead: No\n")
  exact h.2.1 (by decide)

/-- Claim C10, counterexample: on the line "Read: Read: Yes" the text
after the "Read: " prefix, stripped, is "Read: Yes", which differs from
"Yes", yet decode sets read_status to true, because str.replace removes
every occurrence of "Read: ", not only the prefix. -/
theorem c10_counterexample :
    decodeLines [str "Read: Read: Yes"] = [{ emptyRec with read_status := some true }] ∧
    pyStrip (str "Read: Yes") ≠ str "Yes" := by
  decide

/-- Claim C10, amended: for a Read line whose value does not itself
contain the pattern "Read: ", decode appends the record with read_status
true exactly when the value, stripped of surrounding whitespace, equals
"Yes" case-sensitively; every other such value (for example "No", "yes",
or arbitrary text) yields read_status false rather than an error. -/
theorem c10_read_amended (library : List Rec) (book : Rec) (v : Str)
    (h : containsSub (str "Read: ") v = false) :
    decodeLine (library, book) (str "Read: " ++ v) =
      (library ++ [{ book with read_status := some (decide (pyStrip v = str "Yes")) }],
       emptyRec) := by
  have hn1 : pyStartswith (str "Title:") (str "Read: " ++ v) = false :=
    pyStartswith_cons_ne _ _ (by decide)
  have hn2 : pyStartswith (str "Author:") (str "Read: " ++ v) = false :=
    pyStartswith_cons_ne _ _ (by decide)
  have hn3 : pyStartswith (str "Year:") (str "Read: " ++ v) = false :=
    pyStartswith_cons_ne _ _ (by decide)
  have hn4 : pyStartswith (str "Genre:") (str "Read: " ++ v) = false :=
    pyStartswith_cons_ne _ _ (by decide)
  have hpos : pyStartswith (str "Read:") (str "Read: " ++ v) = true :=
    pyStartswith_append_self (str "Read:") (' ' :: v)
  have hrep : pyReplace (str "Read: ") [] (str "Read: " ++ v) = v :=
    pyReplace_label (by decide) h
  simp [decodeLine, hn1, hn2, hn3, hn4, hpos, hrep]

/-- Witness for C10: the value "yes" (lower case) yields read_status
false. -/
theorem c10_read_witness :
    decodeLine ([], emptyRec) (str "Read: yes") =
      ([{ emptyRec with read_status := some false }], emptyRec) := by
  have h := c10_read_amended [] emptyRec (str "yes") (by decide)
  have he : decide (pyStrip (str "yes") = str "Yes") = false := by decide
  rw [he] at h
  exact h

end LibraryManager
